import Mathlib

/-!
Verification of the slogan-generation workflow of this repository.

The development shallowly embeds the control-loop engine of the source:

* `src/orchestration/workflow.py` — `is_approved`, `should_continue_iteration`
  and `run_slogan_generation`;
* `src/orchestration/models.py` — the `Turn` and `IterationSession` pydantic
  models with their field constraints and field validators;
* `src/config/settings.py` — the `OllamaConfig` fields read by the workflow
  and the `lru_cache` behaviour of `get_ollama_config`.

Modelling conventions:

* Python strings are `String`; `str.strip`, `str.lower`, `str.split("\n")`
  and `str.startswith` are modelled on the character list (ASCII whitespace
  and ASCII lower-casing, which is all the approval phrase needs).
* The writer and reviewer agents are passed as functions
  `String → Except String String` (prompt to response text or raised error),
  matching the single `respond` capability the core uses.
* Mutation of the session object is modelled by explicit state passing; a
  method that can raise returns the raised message together with the
  post-state of the object.
* The `lru_cache` config singleton is threaded explicitly: the runner takes
  the current cached `OllamaConfig` and returns the cache state after the
  run, because the source mutates the cached object in place.
* `datetime.now()` is abstracted to an explicit `Nat` argument (the claims
  under verification do not constrain real time).
* Pydantic does not enable `validate_assignment` on these models, so plain
  attribute assignment (as done by `complete` and by the override writes in
  `run_slogan_generation`) performs no validation; validators run only at
  construction.
-/

/-- ASCII whitespace, modelling Python `str.strip` and the regex class `\s`. -/
def isSpaceChar (c : Char) : Bool :=
  c = ' ' || c = '\t' || c = '\n' || c = '\r' || c = '\x0b' || c = '\x0c'

/-- Python `str.strip()` on a character list. -/
def stripChars (l : List Char) : List Char :=
  ((l.dropWhile isSpaceChar).reverse.dropWhile isSpaceChar).reverse

/-- Python `str.strip()`. -/
def stripString (s : String) : String := String.mk (stripChars s.data)

/-- Python `str.lower()` (ASCII range, which covers the approval phrase). -/
def lowerChars (l : List Char) : List Char := l.map Char.toLower

/-- Python `str.split("\n")` on a character list. -/
def splitLines : List Char → List (List Char)
  | [] => [[]]
  | c :: rest =>
    if c = '\n' then [] :: splitLines rest
    else
      match splitLines rest with
      | [] => [[c]]
      | l :: ls => (c :: l) :: ls

/-- `startsWithList pat l` is Python `l.startswith(pat)`. -/
def startsWithList : List Char → List Char → Bool
  | [], _ => true
  | _ :: _, [] => false
  | p :: ps, c :: cs => p = c && startsWithList ps cs

/-- The trailing `[!.]*$` part of the approval regex. -/
def bangDotTail : List Char → Bool
  | [] => true
  | c :: rest => (c = '!' || c = '.') && bangDotTail rest

/-- The `it[!.]*$` part of the approval regex. -/
def itTail : List Char → Bool
  | 'i' :: 't' :: rest => bangDotTail rest
  | _ => false

/-- After one whitespace character was seen: skip further whitespace, then
require `it[!.]*$`. -/
def spacesThenIt : List Char → Bool
  | [] => false
  | c :: rest => if isSpaceChar c then spacesThenIt rest else itTail (c :: rest)

/-- `re.match(r'^ship\s+it[!.]*$', line)` as a Boolean matcher: the literal
`ship`, at least one whitespace character, the literal `it`, then only `!`
or `.` until the end of the line. -/
def shipItLine (l : List Char) : Bool :=
  match l with
  | 's' :: 'h' :: 'i' :: 'p' :: c :: rest => isSpaceChar c && spacesThenIt (c :: rest)
  | _ => false

/-- `is_approved` from `src/orchestration/workflow.py`: empty input is
rejected; the stripped, lower-cased response approves when it starts with
`ship it`, or when some line of it (each line stripped) matches
`^ship\s+it[!.]*$`. -/
def is_approved (reviewer_response : String) : Bool :=
  if reviewer_response.data = [] then false
  else
    if startsWithList "ship it".data (lowerChars (stripChars reviewer_response.data)) then true
    else
      (((splitLines (lowerChars (stripChars reviewer_response.data))).map stripChars).any
        shipItLine)

/-- `is_approved` applied through the Python truthiness test
`if not reviewer_response`: a `None` argument takes the same early `False`
return as the empty string. -/
def is_approved_optional : Option String → Bool
  | none => false
  | some s => is_approved s

/-- The approval rule as worded by the spec (§4.1) and the claim C2: after
trimming and lower-casing, the text starts with the leading phrase
`ship it`, or some individual trimmed line consists exactly of `ship`,
one-or-more whitespace characters, `it`, and zero-or-more trailing `!` or
`.` characters. -/
def approvedSpecRule (text : String) : Bool :=
  startsWithList "ship it".data (lowerChars (stripChars text.data)) ||
    (((splitLines (lowerChars (stripChars text.data))).map stripChars).any shipItLine)

/-- `CompletionReason` from `src/orchestration/models.py`. -/
inductive CompletionReason where
  | approved
  | max_turns
  | error
deriving DecidableEq, Repr

/-- The `Turn` model, restricted to the fields the control flow reads (the
creation timestamp is unconstrained by the claims and is omitted). -/
structure Turn where
  turn_number : Nat
  slogan : String
  feedback : Option String
  approved : Bool
deriving DecidableEq, Repr

/-- Pydantic construction of `Turn`: field constraints
`turn_number ∈ [1, 10]`, `1 ≤ len(slogan) ≤ 500`, `len(feedback) ≤ 1000`
(skipped for `None`), checked in field declaration order. -/
def mkTurn (turn_number : Nat) (slogan : String) (feedback : Option String)
    (approved : Bool) : Except String Turn :=
  if turn_number < 1 then .error "turn_number must be at least 1"
  else if 10 < turn_number then .error "turn_number must be at most 10"
  else if slogan.length < 1 then .error "slogan must be non-empty"
  else if 500 < slogan.length then .error "slogan too long"
  else
    match feedback with
    | some f =>
      if 1000 < f.length then .error "feedback too long"
      else .ok ⟨turn_number, slogan, feedback, approved⟩
    | none => .ok ⟨turn_number, slogan, feedback, approved⟩

/-- The `IterationSession` model; `started_at` and `completed_at` keep their
role as instants but range over `Nat`. -/
structure IterationSession where
  user_input : String
  model_name : String
  turns : List Turn
  final_slogan : Option String
  completed : Bool
  completion_reason : Option CompletionReason
  started_at : Nat
  completed_at : Option Nat
deriving DecidableEq, Repr

/-- The loop of `IterationSession.validate_turn_order`: `enumerate(turns, 1)`
requiring `turn.turn_number == i` at each position. -/
def checkTurnOrderFrom : Nat → List Turn → Except String Unit
  | _, [] => .ok ()
  | i, t :: ts =>
    if t.turn_number ≠ i then .error "incorrect turn_number"
    else checkTurnOrderFrom (i + 1) ts

/-- `IterationSession.validate_turn_order`. -/
def validate_turn_order (turns : List Turn) : Except String Unit :=
  checkTurnOrderFrom 1 turns

/-- Python falsiness of an optional string: `None` and `""` are falsy. -/
def optStrFalsy : Option String → Bool
  | none => true
  | some s => s == ""

/-- Pydantic construction of `IterationSession`: field constraints and the
two field validators, in field declaration order.  When the validator of
`completed` runs, `completion_reason` is declared after `completed` and is
therefore absent from `info.data`, so `info.data.get("completion_reason")`
yields `None` there and any construction with `completed = True` fails. -/
def mkSession (user_input model_name : String) (turns : List Turn)
    (final_slogan : Option String) (completed : Bool)
    (completion_reason : Option CompletionReason)
    (started_at : Nat) (completed_at : Option Nat) :
    Except String IterationSession :=
  if user_input.length < 1 then .error "user_input must be non-empty"
  else if 1000 < user_input.length then .error "user_input too long"
  else if model_name.length < 1 then .error "model_name must be non-empty"
  else if 10 < turns.length then .error "too many turns"
  else
    match validate_turn_order turns with
    | .error e => .error e
    | .ok _ =>
      if completed then
        if optStrFalsy final_slogan then
          .error "Completed session must have final_slogan"
        else
          .error "Completed session must have completion_reason"
      else
        .ok ⟨user_input, model_name, turns, final_slogan, completed,
             completion_reason, started_at, completed_at⟩

/-- `IterationSession.add_turn`: constructs a `Turn` with
`turn_number = len(turns) + 1` and appends it.  Returns the raised
validation error or the new turn, paired with the post-state of the session
(on error, `Turn(...)` raises before `self.turns.append`, so the session is
unchanged). -/
def IterationSession.add_turn (s : IterationSession) (slogan : String)
    (feedback : Option String) (approved : Bool) :
    Except String Turn × IterationSession :=
  match mkTurn (s.turns.length + 1) slogan feedback approved with
  | .error e => (.error e, s)
  | .ok t => (.ok t, { s with turns := s.turns ++ [t] })

/-- `IterationSession.complete`: direct attribute assignment (pydantic runs
no validators on assignment since `validate_assignment` is not enabled, so
this never raises).  `now` stands for `datetime.now()`. -/
def IterationSession.complete (s : IterationSession) (reason : CompletionReason)
    (now : Nat) : IterationSession :=
  { s with
      completed := true
      completion_reason := some reason
      completed_at := some now
      final_slogan := (s.turns.getLast?).map Turn.slogan }

/-- `OllamaConfig` from `src/config/settings.py`, restricted to the fields
the workflow reads. -/
structure OllamaConfig where
  model_name : String
  max_turns : Int
deriving DecidableEq, Repr

/-- The default field values of `OllamaConfig` (no environment overrides):
`model_name = "mistral:latest"`, `max_turns = 5`. -/
def defaultOllamaConfig : OllamaConfig := ⟨"mistral:latest", 5⟩

/-- `should_continue_iteration` from `src/orchestration/workflow.py`. -/
def should_continue_iteration (session : IterationSession)
    (config : OllamaConfig) : Bool :=
  match session.turns.getLast? with
  | none => true
  | some latest =>
    if latest.approved then false
    else if config.max_turns ≤ (session.turns.length : Int) then false
    else true

/-- Python `f"{x}"` on an optional string (`None` prints as `"None"`). -/
def pyOptStr : Option String → String
  | none => "None"
  | some s => s

/-- The writer prompt built by the loop body: the plain topic on turn 1,
otherwise the previous slogan and feedback plus the improvement request. -/
def writerPrompt (user_input : String) (session : IterationSession) : String :=
  match session.turns.getLast? with
  | none => "Create a slogan for: " ++ user_input
  | some prev =>
      "Previous slogan: " ++ prev.slogan ++ "\n" ++
      "Feedback: " ++ pyOptStr prev.feedback ++ "\n\n" ++
      "Create an improved slogan for: " ++ user_input

/-- The reviewer prompt built by the loop body. -/
def reviewerPrompt (user_input slogan : String) : String :=
  "Review this slogan for \x27" ++ user_input ++ "\x27:\n\n" ++
  "Slogan: " ++ slogan ++ "\n\n" ++
  "Provide feedback or approve with \x27SHIP IT!\x27"

/-- Outcome of the `while` loop of `run_slogan_generation`: normal exit with
the session state, or an exception carrying its message and the session
state at raise time. -/
inductive LoopResult where
  | done (s : IterationSession)
  | failed (msg : String) (s : IterationSession)
deriving DecidableEq, Repr

/-- One execution of the `while` loop body of `run_slogan_generation`:
re-check the continuation condition; call the writer on the built prompt
and strip its text into the slogan; call the reviewer and strip its text
into the feedback; classify approval; `add_turn`; on approval `complete`
as approved and break, otherwise run the rest of the loop (`recur`).  A
raised responder or validation error aborts with the session state at
raise time. -/
def runLoopStep (wr rv : String → Except String String) (ui : String)
    (config : OllamaConfig) (recur : IterationSession → LoopResult)
    (s : IterationSession) : LoopResult :=
  if should_continue_iteration s config then
    match wr (writerPrompt ui s) with
    | .error e => .failed e s
    | .ok wtext =>
      match rv (reviewerPrompt ui (stripString wtext)) with
      | .error e => .failed e s
      | .ok rtext =>
        match s.add_turn (stripString wtext) (some (stripString rtext))
            (is_approved (stripString rtext)) with
        | (.error e, s') => .failed e s'
        | (.ok _, s') =>
          if is_approved (stripString rtext) then .done (s'.complete .approved 0)
          else recur s'
  else .done s

/-- The `while should_continue_iteration` loop, bounded by fuel.  Each
iteration either exits or appends one turn, and `add_turn` rejects an 11th
turn, so the loop body can run at most 11 times; `runLoop` instantiates the
fuel at 12, which is never exhausted (`runLoop_unfold` recovers the exact
loop equation). -/
def runLoopFuel (wr rv : String → Except String String) (ui : String)
    (config : OllamaConfig) : Nat → IterationSession → LoopResult
  | 0, s => .failed "fuel exhausted" s
  | fuel + 1, s => runLoopStep wr rv ui config (runLoopFuel wr rv ui config fuel) s

/-- The main iteration loop of `run_slogan_generation`. -/
def runLoop (wr rv : String → Except String String) (ui : String)
    (config : OllamaConfig) (s : IterationSession) : LoopResult :=
  runLoopFuel wr rv ui config 12 s

/-- Outcome of `run_slogan_generation`: the `ValueError` for blank input
(raised before the config is read and before any session exists), an
uncaught pydantic error from session construction, the wrapped
`RuntimeError` from the loop (carrying the session completed as `error`),
or the completed session. -/
inductive RunResult where
  | invalidInput (msg : String)
  | constructionError (msg : String)
  | failure (msg : String) (s : IterationSession)
  | ok (s : IterationSession)
deriving DecidableEq, Repr

/-- The override assignments of `run_slogan_generation` on the shared config
object: `if model_name: config.model_name = model_name` and
`if max_turns is not None: config.max_turns = max_turns`. -/
def effectiveConfig (cache : OllamaConfig) (model_name : Option String)
    (max_turns : Option Int) : OllamaConfig :=
  match max_turns with
  | some t =>
    { (match model_name with
       | some m => if m = "" then cache else { cache with model_name := m }
       | none => cache) with max_turns := t }
  | none =>
    match model_name with
    | some m => if m = "" then cache else { cache with model_name := m }
    | none => cache

/-- `run_slogan_generation` from `src/orchestration/workflow.py`.  The
writer and reviewer responders are the two agents as prompt-to-text
functions; `cache` is the current state of the `lru_cache` singleton of
`get_ollama_config`.  Returns the outcome together with the post-run state
of the cached config: the override writes mutate the shared cached object,
so the returned cache is the effective config whenever the input check
passed. -/
def run_slogan_generation (wr rv : String → Except String String)
    (cache : OllamaConfig) (user_input : String)
    (model_name : Option String) (max_turns : Option Int) :
    RunResult × OllamaConfig :=
  if user_input.data = [] ∨ (stripString user_input).data = [] then
    (.invalidInput "User input cannot be empty", cache)
  else
    match mkSession (stripString user_input)
        (effectiveConfig cache model_name max_turns).model_name
        [] none false none 0 none with
    | .error e => (.constructionError e, effectiveConfig cache model_name max_turns)
    | .ok session =>
      match runLoop wr rv user_input (effectiveConfig cache model_name max_turns)
          session with
      | .failed e s =>
        (.failure ("Workflow failed: " ++ e) (s.complete .error 0),
         effectiveConfig cache model_name max_turns)
      | .done s =>
        if s.completed then (.ok s, effectiveConfig cache model_name max_turns)
        else (.ok (s.complete .max_turns 0), effectiveConfig cache model_name max_turns)

/-- Observer: the turn count of a successful run outcome. -/
def runOkTurnCount : RunResult → Option Nat
  | .ok s => some s.turns.length
  | _ => none

/-- Observer: whether a run outcome is the blank-input `ValueError`. -/
def isInvalidInput : RunResult → Bool
  | .invalidInput _ => true
  | _ => false

/-- A writer responder that always answers `Drink Green` (scenario A of the
spec). -/
def wrStub : String → Except String String := fun _ => .ok "Drink Green"

/-- A reviewer responder that always answers `Needs more emotional appeal`
and hence never approves (scenario A of the spec). -/
def rvStub : String → Except String String := fun _ => .ok "Needs more emotional appeal"

/-- A writer responder that always answers `Hydrate Now` (scenario B of the
spec). -/
def wrStubB : String → Except String String := fun _ => .ok "Hydrate Now"

/-- A reviewer responder that always approves (scenario B of the spec). -/
def rvStubB : String → Except String String := fun _ => .ok "SHIP IT! Great work."

/-- A writer responder whose invocation always fails. -/
def wrFail : String → Except String String := fun _ => .error "boom"

/-- Replaying a list of `add_turn` requests (slogan, feedback, approved)
against a session, keeping the post-state of each call whether or not it
raised. -/
def applyAddTurns (s : IterationSession)
    (reqs : List (String × Option String × Bool)) : IterationSession :=
  reqs.foldl (fun acc r => (acc.add_turn r.1 r.2.1 r.2.2).2) s

/-- A session literal holding ten sequentially numbered turns. -/
def tenTurns : List Turn :=
  [⟨1, "s", none, false⟩, ⟨2, "s", none, false⟩, ⟨3, "s", none, false⟩,
   ⟨4, "s", none, false⟩, ⟨5, "s", none, false⟩, ⟨6, "s", none, false⟩,
   ⟨7, "s", none, false⟩, ⟨8, "s", none, false⟩, ⟨9, "s", none, false⟩,
   ⟨10, "s", none, false⟩]

/-- A session at the ten-turn cap. -/
def sessionTen : IterationSession :=
  ⟨"topic", "mistral:latest", tenTurns, none, false, none, 0, none⟩

/-- A freshly constructed session with no turns. -/
def sessionFresh : IterationSession :=
  ⟨"topic", "mistral:latest", [], none, false, none, 0, none⟩

/-! ### Helper lemmas -/

theorem mem_of_getLast?_eq {α : Type} {l : List α} {a : α}
    (h : l.getLast? = some a) : a ∈ l := by
  induction l with
  | nil => simp at h
  | cons b t ih =>
    cases t with
    | nil => simp_all
    | cons c t' =>
      rw [List.getLast?_cons_cons] at h
      exact List.mem_cons_of_mem b (ih h)

theorem mkTurn_ok_inv {n : Nat} {sl : String} {fb : Option String} {ap : Bool} {t : Turn}
    (h : mkTurn n sl fb ap = .ok t) :
    t = ⟨n, sl, fb, ap⟩ ∧ 1 ≤ n ∧ n ≤ 10 ∧ 1 ≤ sl.length ∧ sl.length ≤ 500 := by
  unfold mkTurn at h
  split at h
  · simp at h
  split at h
  · simp at h
  split at h
  · simp at h
  split at h
  · simp at h
  split at h
  · split at h
    · simp at h
    · injection h with h
      exact ⟨h.symm, by omega, by omega, by omega, by omega⟩
  · injection h with h
    exact ⟨h.symm, by omega, by omega, by omega, by omega⟩

theorem add_turn_err_inv {s : IterationSession} {sl : String} {fb : Option String}
    {ap : Bool} {e : String} {s' : IterationSession}
    (h : s.add_turn sl fb ap = (.error e, s')) : s' = s := by
  unfold IterationSession.add_turn at h
  cases hm : mkTurn (s.turns.length + 1) sl fb ap with
  | error e2 => rw [hm] at h; simp at h; exact h.2.symm
  | ok t => rw [hm] at h; simp at h

theorem add_turn_ok_inv {s : IterationSession} {sl : String} {fb : Option String}
    {ap : Bool} {t : Turn} {s' : IterationSession}
    (h : s.add_turn sl fb ap = (.ok t, s')) :
    t = ⟨s.turns.length + 1, sl, fb, ap⟩ ∧
    s' = { s with turns := s.turns ++ [t] } ∧
    s.turns.length + 1 ≤ 10 ∧ 1 ≤ sl.length := by
  unfold IterationSession.add_turn at h
  cases hm : mkTurn (s.turns.length + 1) sl fb ap with
  | error e2 => rw [hm] at h; simp at h
  | ok t0 =>
    rw [hm] at h
    simp at h
    obtain ⟨ht0, hs'⟩ := h
    obtain ⟨ht, h1, h10, hs1, _⟩ := mkTurn_ok_inv hm
    subst ht0
    exact ⟨ht, hs'.symm, h10, hs1⟩

theorem add_turn_ok (s : IterationSession) (sl : String) (fb : Option String) (ap : Bool)
    (hlen : s.turns.length + 1 ≤ 10) (hs1 : 1 ≤ sl.length) (hs500 : sl.length ≤ 500)
    (hfb : ∀ f, fb = some f → f.length ≤ 1000) :
    s.add_turn sl fb ap =
      (.ok ⟨s.turns.length + 1, sl, fb, ap⟩,
       { s with turns := s.turns ++ [⟨s.turns.length + 1, sl, fb, ap⟩] }) := by
  have hmk : mkTurn (s.turns.length + 1) sl fb ap = .ok ⟨s.turns.length + 1, sl, fb, ap⟩ := by
    unfold mkTurn
    rw [if_neg (by omega), if_neg (by omega), if_neg (by omega), if_neg (by omega)]
    cases fb with
    | none => rfl
    | some f =>
      have hf : ¬ 1000 < f.length := by have := hfb f rfl; omega
      simp [hf]
  unfold IterationSession.add_turn
  rw [hmk]

/-! ### Claim theorems -/

/-- C2: `is_approved text` is true exactly when, after trimming and
lower-casing, the text starts with the leading phrase `ship it` or some
individual trimmed line matches `ship` + whitespace + `it` + trailing
`!`/`.`; it is false for empty, `None`, or whitespace-only input, false for
a trailing `ship it` aside inside a longer critique sentence, and false for
unrelated words merely containing `ship`. -/
theorem C2_is_approved_characterization :
    (∀ text : String, is_approved text = approvedSpecRule text) ∧
    is_approved_optional none = false ∧
    is_approved "" = false ∧
    is_approved "   " = false ∧
    is_approved "This is excellent, ship it!" = false ∧
    is_approved "Good start, but maybe later ship it" = false ∧
    is_approved "shipping" = false ∧
    is_approved "ship this item" = false ∧
    is_approved "SHIP IT! Great work." = true ∧
    is_approved "Ship it. Nice work" = true ∧
    is_approved "ship   it" = true ∧
    is_approved "Looks wrong.\nSHIP IT!" = true := by
  refine ⟨?_, rfl, rfl, rfl, rfl, rfl, rfl, rfl, rfl, rfl, rfl, rfl⟩
  intro text
  unfold is_approved approvedSpecRule
  by_cases h : text.data = []
  · rw [if_pos h, h]
    rfl
  · rw [if_neg h]
    cases hs : startsWithList "ship it".data (lowerChars (stripChars text.data)) <;>
      simp [hs]

/-- C9: `should_continue_iteration` is true for every session with an empty
turns list, whatever the configured `max_turns`; consequently a run whose
effective cap is zero or negative still performs one full writer/reviewer
turn before the cap comparison can stop it. -/
theorem C9_empty_session_always_continues :
    (∀ (config : OllamaConfig) (ui mn : String) (fs : Option String) (c : Bool)
       (cr : Option CompletionReason) (st : Nat) (ca : Option Nat),
       should_continue_iteration ⟨ui, mn, [], fs, c, cr, st, ca⟩ config = true) ∧
    (run_slogan_generation wrStub rvStub defaultOllamaConfig "topic" none (some 0)).1 =
      .ok ⟨"topic", "mistral:latest",
        [⟨1, "Drink Green", some "Needs more emotional appeal", false⟩],
        some "Drink Green", true, some .max_turns, 0, some 0⟩ ∧
    runOkTurnCount
      (run_slogan_generation wrStub rvStub defaultOllamaConfig "topic" none (some (-3))).1 =
      some 1 := by
  exact ⟨fun _ _ _ _ _ _ _ _ => rfl, rfl, rfl⟩

/-- C3: the blank-input `ValueError` is raised synchronously, before any
responder or session exists (the result does not depend on the responders
and the cached config is untouched); however, an out-of-range `max_turns`
override is NOT rejected: assignment bypasses the pydantic field bounds, so
`max_turns = 0` is accepted, one full turn still runs, and `max_turns = 99`
is likewise stored on the shared config. -/
theorem C3_invalid_input_only_for_blank_topic (wr rv : String → Except String String)
    (cache : OllamaConfig) (mo : Option String) (mt : Option Int) :
    run_slogan_generation wr rv cache "" mo mt =
      (.invalidInput "User input cannot be empty", cache) ∧
    run_slogan_generation wr rv cache "   " mo mt =
      (.invalidInput "User input cannot be empty", cache) ∧
    isInvalidInput
      (run_slogan_generation wrStub rvStub defaultOllamaConfig "topic" none (some 0)).1
      = false ∧
    runOkTurnCount
      (run_slogan_generation wrStub rvStub defaultOllamaConfig "topic" none (some 0)).1
      = some 1 ∧
    (run_slogan_generation wrStub rvStub defaultOllamaConfig "topic" none (some 0)).2.max_turns
      = 0 ∧
    isInvalidInput
      (run_slogan_generation wrStub rvStub defaultOllamaConfig "topic" none (some 99)).1
      = false ∧
    (run_slogan_generation wrStub rvStub defaultOllamaConfig "topic" none (some 99)).2.max_turns
      = 99 := by
  exact ⟨rfl, rfl, rfl, rfl, rfl, rfl, rfl⟩

/-- C1: the `max_turns` override of one run is written into the `lru_cache`
config singleton and is observed by a later run that passes no override:
after a first run with override 2, the cached `max_turns` is 2 (not the
default 5), and a second run without overrides executes only 2 turns. -/
theorem C1_override_leaks_into_shared_config :
    defaultOllamaConfig.max_turns = 5 ∧
    (run_slogan_generation wrStub rvStub defaultOllamaConfig "first topic" none
      (some 2)).2.max_turns = 2 ∧
    runOkTurnCount (run_slogan_generation wrStub rvStub defaultOllamaConfig "first topic"
      none (some 2)).1 = some 2 ∧
    runOkTurnCount (run_slogan_generation wrStub rvStub
      (run_slogan_generation wrStub rvStub defaultOllamaConfig "first topic" none (some 2)).2
      "second topic" none none).1 = some 2 ∧
    (run_slogan_generation wrStub rvStub
      (run_slogan_generation wrStub rvStub defaultOllamaConfig "first topic" none (some 2)).2
      "second topic" none none).2.max_turns = 2 := by
  exact ⟨rfl, rfl, rfl, rfl, rfl⟩

/-- C10: `complete` is unguarded: on any session (completed or not) it sets
`completed`, overwrites `completion_reason`, `completed_at` and
`final_slogan` (the last turn slogan, or `none` with no turns), leaves
`user_input`, `model_name`, `turns` and `started_at` unchanged, and a
repeated call simply overwrites the previous one. -/
theorem C10_complete_unguarded (s : IterationSession) (reason : CompletionReason) (now : Nat) :
    (s.complete reason now).completed = true ∧
    (s.complete reason now).completion_reason = some reason ∧
    (s.complete reason now).completed_at = some now ∧
    (s.complete reason now).final_slogan = (s.turns.getLast?).map Turn.slogan ∧
    (s.complete reason now).user_input = s.user_input ∧
    (s.complete reason now).model_name = s.model_name ∧
    (s.complete reason now).turns = s.turns ∧
    (s.complete reason now).started_at = s.started_at ∧
    (∀ (r2 : CompletionReason) (n2 : Nat),
      (s.complete reason now).complete r2 n2 = s.complete r2 n2) ∧
    (({ s with turns := ([] : List Turn) }).complete reason now).final_slogan = none := by
  exact ⟨rfl, rfl, rfl, rfl, rfl, rfl, rfl, rfl, fun _ _ => rfl, rfl⟩

/-- C6 counterexample: a validly constructed session with no turns, once
passed to `complete`, is `completed = true` with `final_slogan = None` —
the mutation path enforces nothing, refuting the claim that no operation
sequence can yield a completed session lacking a non-empty
`final_slogan`. -/
theorem C6_counterexample :
    mkSession "topic" "mistral:latest" [] none false none 0 none = .ok sessionFresh ∧
    (sessionFresh.complete .max_turns 7).completed = true ∧
    (sessionFresh.complete .max_turns 7).final_slogan = none := by
  exact ⟨rfl, rfl, rfl⟩

/-- C6 amended: the completion-consistency invariant is enforced with a
validation error at construction (no `IterationSession` can be constructed
with `completed = true` and a missing or empty `final_slogan`), but
mutation is unvalidated: `complete` always succeeds, and on a session with
no turns it produces `completed = true` with `final_slogan = None`. -/
theorem C6_completion_invariant_construction_only :
    (∀ (ui mn : String) (turns : List Turn) (cr : Option CompletionReason)
       (st : Nat) (ca : Option Nat),
       (mkSession ui mn turns none true cr st ca).isOk = false) ∧
    (∀ (ui mn : String) (turns : List Turn) (cr : Option CompletionReason)
       (st : Nat) (ca : Option Nat),
       (mkSession ui mn turns (some "") true cr st ca).isOk = false) ∧
    (sessionFresh.complete .max_turns 7).completed = true ∧
    (sessionFresh.complete .max_turns 7).completion_reason = some .max_turns ∧
    (sessionFresh.complete .max_turns 7).final_slogan = none := by
  refine ⟨?_, ?_, rfl, rfl, rfl⟩ <;>
  · intro ui mn turns cr st ca
    unfold mkSession
    repeat' split
    all_goals first | rfl | simp_all

/-- C5: on a session already holding 10 turns, `add_turn` raises a
validation error and leaves the turns sequence unchanged; a successful
`add_turn` grows the turns by one and never beyond 10, so no session ever
holds more than 10 turns. -/
theorem C5_add_turn_enforces_cap (s : IterationSession) (sl : String)
    (fb : Option String) (ap : Bool) :
    (10 ≤ s.turns.length →
      (∃ e, (s.add_turn sl fb ap).1 = .error e) ∧ (s.add_turn sl fb ap).2 = s) ∧
    (∀ (t : Turn) (s' : IterationSession), s.add_turn sl fb ap = (.ok t, s') →
      s'.turns.length = s.turns.length + 1 ∧ s'.turns.length ≤ 10) := by
  constructor
  · intro h10
    have hmk : mkTurn (s.turns.length + 1) sl fb ap =
        .error "turn_number must be at most 10" := by
      unfold mkTurn
      rw [if_neg (by omega), if_pos (by omega)]
    unfold IterationSession.add_turn
    rw [hmk]
    exact ⟨⟨_, rfl⟩, rfl⟩
  · intro t s' h
    obtain ⟨ht, hs', hlen, _⟩ := add_turn_ok_inv h
    subst hs'
    simp
    omega

/-- Witness for C5 at a concrete ten-turn session and a concrete fresh
session. -/
theorem C5_add_turn_enforces_cap_witness :
    (10 ≤ sessionTen.turns.length) ∧
    ((∃ e, (sessionTen.add_turn "s" none false).1 = .error e) ∧
      (sessionTen.add_turn "s" none false).2 = sessionTen) ∧
    (sessionFresh.add_turn "a" none false =
      (.ok ⟨1, "a", none, false⟩,
       ⟨"topic", "mistral:latest", [⟨1, "a", none, false⟩], none, false, none, 0, none⟩)) ∧
    ((⟨"topic", "mistral:latest", [⟨1, "a", none, false⟩], none, false, none, 0,
        none⟩ : IterationSession).turns.length = sessionFresh.turns.length + 1 ∧
     (⟨"topic", "mistral:latest", [⟨1, "a", none, false⟩], none, false, none, 0,
        none⟩ : IterationSession).turns.length ≤ 10) := by
  exact ⟨by decide, (C5_add_turn_enforces_cap sessionTen "s" none false).1 (by decide),
    rfl, (C5_add_turn_enforces_cap sessionFresh "a" none false).2 _ _ rfl⟩

theorem numbering_preserved {s : IterationSession} {sl : String} {fb : Option String}
    {ap : Bool} {res : Except String Turn} {s' : IterationSession}
    (hr : s.add_turn sl fb ap = (res, s'))
    (h : ∀ i (hi : i < s.turns.length), (s.turns.get ⟨i, hi⟩).turn_number = i + 1) :
    ∀ i (hi : i < s'.turns.length), (s'.turns.get ⟨i, hi⟩).turn_number = i + 1 := by
  cases res with
  | error e =>
    rw [add_turn_err_inv hr]
    exact h
  | ok t =>
    obtain ⟨ht, hs', _, _⟩ := add_turn_ok_inv hr
    subst hs'
    intro i hi
    simp only [List.get_eq_getElem] at h ⊢
    by_cases hlt : i < s.turns.length
    · rw [List.getElem_append_left hlt]
      exact h i hlt
    · have hlen : i = s.turns.length := by
        simp [List.length_append] at hi
        omega
      subst hlen
      simp [ht]

/-- C7: after any sequence of `add_turn` calls on a session whose turns are
sequentially numbered (in particular a fresh session), every index `i`
satisfies `turns[i].turn_number = i + 1`: 1-indexed, gap-free, in order. -/
theorem C7_turn_numbers_sequential (s : IterationSession)
    (reqs : List (String × Option String × Bool))
    (h : ∀ i (hi : i < s.turns.length), (s.turns.get ⟨i, hi⟩).turn_number = i + 1) :
    ∀ i (hi : i < (applyAddTurns s reqs).turns.length),
      ((applyAddTurns s reqs).turns.get ⟨i, hi⟩).turn_number = i + 1 := by
  induction reqs generalizing s with
  | nil => exact h
  | cons r rs ih => exact ih _ (numbering_preserved rfl h)

/-- Witness for C7: two concrete `add_turn` requests against the fresh
session. -/
theorem C7_turn_numbers_sequential_witness :
    (∀ i (hi : i < sessionFresh.turns.length),
      (sessionFresh.turns.get ⟨i, hi⟩).turn_number = i + 1) ∧
    (∀ i (hi : i < (applyAddTurns sessionFresh
        [("a", none, false), ("b", some "f", true)]).turns.length),
      ((applyAddTurns sessionFresh
        [("a", none, false), ("b", some "f", true)]).turns.get ⟨i, hi⟩).turn_number = i + 1) := by
  have hbase : ∀ i (hi : i < sessionFresh.turns.length),
      (sessionFresh.turns.get ⟨i, hi⟩).turn_number = i + 1 :=
    fun i hi => absurd hi (Nat.not_lt_zero i)
  exact ⟨hbase, C7_turn_numbers_sequential sessionFresh _ hbase⟩

theorem of_should_continue_true {s : IterationSession} {config : OllamaConfig}
    (h : should_continue_iteration s config = true) :
    s.turns = [] ∨ (s.turns.length : Int) < config.max_turns := by
  unfold should_continue_iteration at h
  cases hl : s.turns.getLast? with
  | none => exact Or.inl (List.getLast?_eq_none_iff.mp hl)
  | some latest =>
    rw [hl] at h
    change (if latest.approved = true then false
      else if config.max_turns ≤ (s.turns.length : Int) then false else true) = true at h
    right
    split at h
    · simp at h
    · split at h
      · simp at h
      · next hle => omega

theorem should_continue_true_of_lt {s : IterationSession} {config : OllamaConfig}
    (hunapp : ∀ t ∈ s.turns, t.approved = false)
    (hlt : (s.turns.length : Int) < config.max_turns) :
    should_continue_iteration s config = true := by
  unfold should_continue_iteration
  cases hl : s.turns.getLast? with
  | none => rfl
  | some latest =>
    have ha : latest.approved = false := hunapp latest (mem_of_getLast?_eq hl)
    change (if latest.approved = true then false
      else if config.max_turns ≤ (s.turns.length : Int) then false else true) = true
    rw [if_neg (by simp [ha]), if_neg (by omega)]

theorem should_continue_false_of_cap {s : IterationSession} {config : OllamaConfig}
    (hne : s.turns ≠ []) (hunapp : ∀ t ∈ s.turns, t.approved = false)
    (hge : config.max_turns ≤ (s.turns.length : Int)) :
    should_continue_iteration s config = false := by
  unfold should_continue_iteration
  cases hl : s.turns.getLast? with
  | none => exact absurd (List.getLast?_eq_none_iff.mp hl) hne
  | some latest =>
    have ha : latest.approved = false := hunapp latest (mem_of_getLast?_eq hl)
    change (if latest.approved = true then false
      else if config.max_turns ≤ (s.turns.length : Int) then false else true) = false
    rw [if_neg (by simp [ha]), if_pos hge]

/-- Invariant of the loop: starting from a not-completed session whose
turns are all unapproved and within the cap, a normal loop exit either kept
the session untouched by `complete` (cap exit: still unapproved, with the
continuation condition now false), or completed it as `approved`
immediately at the approving turn, every earlier turn being unapproved. -/
theorem runLoopFuel_done_inv (wr rv : String → Except String String) (ui : String)
    (config : OllamaConfig) :
    ∀ (fuel : Nat) (s s' : IterationSession),
      runLoopFuel wr rv ui config fuel s = .done s' →
      s.completed = false → (∀ t ∈ s.turns, t.approved = false) →
      1 ≤ config.max_turns → (s.turns.length : Int) ≤ config.max_turns →
      (s'.completed = false ∧ (∀ t ∈ s'.turns, t.approved = false) ∧
        should_continue_iteration s' config = false ∧
        (s'.turns.length : Int) ≤ config.max_turns) ∨
      (s'.completed = true ∧ s'.completion_reason = some .approved ∧
        ∃ ts t, s'.turns = ts ++ [t] ∧ t.approved = true ∧
          (∀ u ∈ ts, u.approved = false) ∧ s'.final_slogan = some t.slogan) := by
  intro fuel
  induction fuel with
  | zero => intro s s' h; simp [runLoopFuel] at h
  | succ f ih =>
    intro s s' h hcomp hunapp hcap1 hle
    have hstep : runLoopFuel wr rv ui config (f + 1) s =
        runLoopStep wr rv ui config (runLoopFuel wr rv ui config f) s := rfl
    rw [hstep] at h
    unfold runLoopStep at h
    split at h
    case isTrue hcont =>
      split at h
      case h_1 e heqw => simp at h
      case h_2 wtext heqw =>
        split at h
        case h_1 e heqr => simp at h
        case h_2 rtext heqr =>
          split at h
          case h_1 e s1 heqa => simp at h
          case h_2 t s1 heqa =>
            obtain ⟨ht, hs1, hlen10, _⟩ := add_turn_ok_inv heqa
            split at h
            case isTrue hap =>
              have hs' : s' = s1.complete .approved 0 := by
                injection h with h
                exact h.symm
              subst hs'
              right
              refine ⟨rfl, rfl, s.turns, t, ?_, ?_, hunapp, ?_⟩
              · rw [hs1]
                rfl
              · rw [ht]
                exact hap
              · show (s1.turns.getLast?).map Turn.slogan = some t.slogan
                rw [hs1]
                show ((s.turns ++ [t]).getLast?).map Turn.slogan = some t.slogan
                rw [List.getLast?_concat]
                rfl
            case isFalse hap =>
              have hapf : is_approved (stripString rtext) = false :=
                Bool.eq_false_iff.mpr hap
              have hcomp1 : s1.completed = false := by rw [hs1]; exact hcomp
              have hunapp1 : ∀ u ∈ s1.turns, u.approved = false := by
                intro u hu
                rw [hs1] at hu
                rcases List.mem_append.mp hu with hmem | hmem
                · exact hunapp u hmem
                · rw [List.mem_singleton.mp hmem, ht]
                  exact hapf
              have hle1 : (s1.turns.length : Int) ≤ config.max_turns := by
                have hlen1 : s1.turns.length = s.turns.length + 1 := by
                  rw [hs1]
                  simp
                rcases of_should_continue_true hcont with hnil | hlt
                · rw [hlen1, hnil]
                  simpa using hcap1
                · rw [hlen1]
                  push_cast
                  omega
              exact ih s1 s' h hcomp1 hunapp1 hcap1 hle1
    case isFalse hcont =>
      have hs' : s' = s := by
        injection h with h
        exact h.symm
      subst hs'
      exact Or.inl ⟨hcomp, hunapp, Bool.eq_false_iff.mpr hcont, hle⟩

/-- With total responders producing valid slogan/feedback lengths, a
reviewer that never approves, and a cap in `[1, 10]`, the loop runs to a
normal exit with exactly `max_turns` unapproved turns and the session not
yet completed. -/
theorem runLoopFuel_no_approval (wr rv : String → Except String String) (ui : String)
    (config : OllamaConfig)
    (hw : ∀ p, ∃ w, wr p = .ok w ∧ 1 ≤ (stripString w).length ∧ (stripString w).length ≤ 500)
    (hr : ∀ p, ∃ r, rv p = .ok r ∧ (stripString r).length ≤ 1000)
    (hna : ∀ p r, rv p = .ok r → is_approved (stripString r) = false)
    (hcap1 : 1 ≤ config.max_turns) (hcap10 : config.max_turns ≤ 10) :
    ∀ (fuel : Nat) (s : IterationSession),
      config.max_turns.toNat - s.turns.length < fuel →
      s.completed = false → (∀ t ∈ s.turns, t.approved = false) →
      (s.turns.length : Int) ≤ config.max_turns →
      ∃ s', runLoopFuel wr rv ui config fuel s = .done s' ∧
        s'.completed = false ∧ (s'.turns.length : Int) = config.max_turns ∧
        (∀ t ∈ s'.turns, t.approved = false) := by
  intro fuel
  induction fuel with
  | zero => intro s h; omega
  | succ f ih =>
    intro s hfuel hcomp hunapp hle
    have hstep : runLoopFuel wr rv ui config (f + 1) s =
        runLoopStep wr rv ui config (runLoopFuel wr rv ui config f) s := rfl
    by_cases hstop : config.max_turns ≤ (s.turns.length : Int)
    · have hlen : (s.turns.length : Int) = config.max_turns := le_antisymm hle hstop
      have hne : s.turns ≠ [] := by
        intro hnil
        rw [hnil] at hlen
        simp at hlen
        omega
      refine ⟨s, ?_, hcomp, hlen, hunapp⟩
      rw [hstep]
      unfold runLoopStep
      rw [should_continue_false_of_cap hne hunapp hstop]
      simp
    · push_neg at hstop
      have hsc := should_continue_true_of_lt hunapp hstop
      obtain ⟨w, hwp, hw1, hw500⟩ := hw (writerPrompt ui s)
      obtain ⟨r, hrp, hr1000⟩ := hr (reviewerPrompt ui (stripString w))
      have hap : is_approved (stripString r) = false := hna _ _ hrp
      have hlen10 : s.turns.length + 1 ≤ 10 := by omega
      have hadd := add_turn_ok s (stripString w)
        (some (stripString r)) (is_approved (stripString r))
        hlen10 hw1 hw500 (by intro f0 hf0; cases hf0; exact hr1000)
      obtain ⟨s', hs', hc', hlen', hunapp'⟩ :=
        ih ({ s with turns :=
              s.turns ++ [⟨s.turns.length + 1, stripString w, some (stripString r), false⟩] })
          (by simp; omega)
          hcomp
          (by
            intro u hu
            simp only [List.mem_append, List.mem_singleton] at hu
            rcases hu with hu | hu
            · exact hunapp u hu
            · rw [hu])
          (by simp; omega)
      refine ⟨s', ?_, hc', hlen', hunapp'⟩
      rw [hstep]
      unfold runLoopStep
      rw [hsc]
      simp only [if_true]
      rw [hwp]
      simp only []
      rw [hrp]
      simp only []
      rw [hadd]
      simp only [hap, Bool.false_eq_true, if_false]
      exact hs'

theorem mkSession_ok_fresh {ui mn : String} (h1 : 1 ≤ ui.length) (h2 : ui.length ≤ 1000)
    (h3 : 1 ≤ mn.length) :
    mkSession ui mn [] none false none 0 none =
      .ok ⟨ui, mn, [], none, false, none, 0, none⟩ := by
  unfold mkSession
  rw [if_neg (by omega), if_neg (by omega), if_neg (by omega), if_neg (by simp)]
  rfl

/-- `run_slogan_generation` on a valid topic: the input check passes, the
fresh session is constructed, and the result is the wrapped loop outcome
together with the mutated cached config. -/
theorem run_eq_loop (wr rv : String → Except String String) (cache : OllamaConfig)
    (ui : String) (mo : Option String) (mt : Option Int)
    (hui : (stripString ui).data ≠ [])
    (hui1000 : (stripString ui).length ≤ 1000)
    (hmn : 1 ≤ (effectiveConfig cache mo mt).model_name.length) :
    run_slogan_generation wr rv cache ui mo mt =
      ((match runLoop wr rv ui (effectiveConfig cache mo mt)
          ⟨stripString ui, (effectiveConfig cache mo mt).model_name, [],
           none, false, none, 0, none⟩ with
        | .failed e s => .failure ("Workflow failed: " ++ e) (s.complete .error 0)
        | .done s => if s.completed then .ok s else .ok (s.complete .max_turns 0)),
       effectiveConfig cache mo mt) := by
  have h1 : 1 ≤ (stripString ui).length := List.length_pos.mpr hui
  unfold run_slogan_generation
  rw [if_neg (by
    rintro (h | h)
    · exact hui (by show stripChars ui.data = []; rw [h]; rfl)
    · exact hui h)]
  rw [mkSession_ok_fresh h1 hui1000 hmn]
  simp only []
  cases hR : runLoop wr rv ui (effectiveConfig cache mo mt)
      ⟨stripString ui, (effectiveConfig cache mo mt).model_name, [],
       none, false, none, 0, none⟩ with
  | failed e s => rfl
  | done s =>
    show (if s.completed = true then (RunResult.ok s, effectiveConfig cache mo mt)
          else (RunResult.ok (s.complete .max_turns 0), effectiveConfig cache mo mt)) =
      ((if s.completed = true then RunResult.ok s
        else RunResult.ok (s.complete .max_turns 0)), effectiveConfig cache mo mt)
    by_cases hc : s.completed = true
    · rw [if_pos hc, if_pos hc]
    · rw [if_neg hc, if_neg hc]

/-- C8: every wrapped run failure carries a session completed with reason
`error` (the `except` block completes the session before re-raising the
wrapped `RuntimeError`), and a failing writer or reviewer invocation during
the loop produces exactly such a wrapped failure — never a successful
result. -/
theorem C8_responder_failure_marks_error :
    (∀ (wr rv : String → Except String String) (cache : OllamaConfig) (ui : String)
       (mo : Option String) (mt : Option Int) (msg : String) (s : IterationSession),
       (run_slogan_generation wr rv cache ui mo mt).1 = .failure msg s →
       s.completed = true ∧ s.completion_reason = some .error) ∧
    (∀ (rv : String → Except String String) (e : String),
       (run_slogan_generation (fun _ => .error e) rv defaultOllamaConfig
           "topic" none none).1 =
         .failure ("Workflow failed: " ++ e)
           ⟨"topic", "mistral:latest", [], none, true, some .error, 0, some 0⟩) ∧
    (∀ (e : String),
       (run_slogan_generation wrStub (fun _ => .error e) defaultOllamaConfig
           "topic" none none).1 =
         .failure ("Workflow failed: " ++ e)
           ⟨"topic", "mistral:latest", [], none, true, some .error, 0, some 0⟩) := by
  refine ⟨?_, fun rv e => rfl, fun e => rfl⟩
  intro wr rv cache ui mo mt msg s h
  unfold run_slogan_generation at h
  split at h
  · simp at h
  · split at h
    · simp at h
    · split at h
      · next e s0 heq =>
          simp at h
          obtain ⟨hmsg, hs⟩ := h
          subst hs
          exact ⟨rfl, rfl⟩
      · split at h
        · simp at h
        · simp at h

/-- Witness for C8 at a concrete failing writer invocation. -/
theorem C8_responder_failure_marks_error_witness :
    (⟨"topic", "mistral:latest", [], none, true, some .error, 0,
      some 0⟩ : IterationSession).completed = true ∧
    (⟨"topic", "mistral:latest", [], none, true, some .error, 0,
      some 0⟩ : IterationSession).completion_reason = some .error :=
  C8_responder_failure_marks_error.1 wrFail rvStub defaultOllamaConfig "topic"
    none none "Workflow failed: boom"
    ⟨"topic", "mistral:latest", [], none, true, some .error, 0, some 0⟩ rfl

/-- C4: with a valid topic, a cap in `[1, 10]` and total responders
producing length-valid texts: (a) if the reviewer never approves, the run
returns a session completed as `max_turns` holding exactly `max_turns`
unapproved turns whose `final_slogan` is the last slogan; (b) any returned
session containing an approved turn was completed as `approved`
immediately at that turn — the approved turn is the last one, all earlier
turns are unapproved, and `final_slogan` is its slogan, so approval takes
precedence over the cap check even on the final turn; (c) any returned
session with no approved turn was completed as `max_turns` with exactly
`max_turns` turns. -/
theorem C4_termination_reasons (wr rv : String → Except String String)
    (cache : OllamaConfig) (ui : String) (mo : Option String) (mt : Option Int)
    (hui : (stripString ui).data ≠ [])
    (hui1000 : (stripString ui).length ≤ 1000)
    (hmn : 1 ≤ (effectiveConfig cache mo mt).model_name.length)
    (hcap1 : 1 ≤ (effectiveConfig cache mo mt).max_turns)
    (hcap10 : (effectiveConfig cache mo mt).max_turns ≤ 10)
    (hw : ∀ p, ∃ w, wr p = .ok w ∧ 1 ≤ (stripString w).length ∧ (stripString w).length ≤ 500)
    (hr : ∀ p, ∃ r, rv p = .ok r ∧ (stripString r).length ≤ 1000) :
    ((∀ p r, rv p = .ok r → is_approved (stripString r) = false) →
      ∃ s, (run_slogan_generation wr rv cache ui mo mt).1 = .ok s ∧
        s.completion_reason = some .max_turns ∧
        (s.turns.length : Int) = (effectiveConfig cache mo mt).max_turns ∧
        (∀ t ∈ s.turns, t.approved = false) ∧ s.turns ≠ [] ∧
        s.final_slogan = (s.turns.getLast?).map Turn.slogan) ∧
    (∀ s, (run_slogan_generation wr rv cache ui mo mt).1 = .ok s →
      (∃ t ∈ s.turns, t.approved = true) →
      s.completion_reason = some .approved ∧
      (∃ ts t, s.turns = ts ++ [t] ∧ t.approved = true ∧
        (∀ u ∈ ts, u.approved = false) ∧ s.final_slogan = some t.slogan)) ∧
    (∀ s, (run_slogan_generation wr rv cache ui mo mt).1 = .ok s →
      (∀ t ∈ s.turns, t.approved = false) →
      s.completion_reason = some .max_turns ∧
      (s.turns.length : Int) = (effectiveConfig cache mo mt).max_turns ∧
      s.turns ≠ []) := by
  have hrun := run_eq_loop wr rv cache ui mo mt hui hui1000 hmn
  refine ⟨?_, ?_, ?_⟩
  · intro hna
    obtain ⟨s', hdone, hc', hlen', hunapp'⟩ :=
      runLoopFuel_no_approval wr rv ui (effectiveConfig cache mo mt) hw hr hna hcap1 hcap10
        12 ⟨stripString ui, (effectiveConfig cache mo mt).model_name, [],
            none, false, none, 0, none⟩
        (by simp; omega) rfl (by intro t ht; simp at ht) (by simp; omega)
    have hres : (run_slogan_generation wr rv cache ui mo mt).1 =
        .ok (s'.complete .max_turns 0) := by
      rw [hrun]
      show (match runLoop wr rv ui (effectiveConfig cache mo mt)
          ⟨stripString ui, (effectiveConfig cache mo mt).model_name, [],
           none, false, none, 0, none⟩ with
        | .failed e s => RunResult.failure ("Workflow failed: " ++ e) (s.complete .error 0)
        | .done s => if s.completed = true then RunResult.ok s
                     else RunResult.ok (s.complete .max_turns 0)) =
        RunResult.ok (s'.complete .max_turns 0)
      rw [show runLoop wr rv ui (effectiveConfig cache mo mt)
          ⟨stripString ui, (effectiveConfig cache mo mt).model_name, [],
           none, false, none, 0, none⟩ = .done s' from hdone]
      show (if s'.completed = true then RunResult.ok s'
            else RunResult.ok (s'.complete .max_turns 0)) = RunResult.ok (s'.complete .max_turns 0)
      rw [if_neg (by rw [hc']; exact Bool.false_ne_true)]
    have hne : s'.turns ≠ [] := by
      intro hnil
      rw [hnil] at hlen'
      simp at hlen'
      omega
    exact ⟨s'.complete .max_turns 0, hres, rfl, hlen', hunapp', hne, rfl⟩
  · intro s hok hex
    rw [hrun] at hok
    change (match runLoop wr rv ui (effectiveConfig cache mo mt)
        ⟨stripString ui, (effectiveConfig cache mo mt).model_name, [],
         none, false, none, 0, none⟩ with
      | .failed e s => RunResult.failure ("Workflow failed: " ++ e) (s.complete .error 0)
      | .done s => if s.completed = true then RunResult.ok s
                   else RunResult.ok (s.complete .max_turns 0)) = RunResult.ok s at hok
    split at hok
    · simp at hok
    · next s1 heq =>
      have hinv := runLoopFuel_done_inv wr rv ui (effectiveConfig cache mo mt) 12
        ⟨stripString ui, (effectiveConfig cache mo mt).model_name, [],
         none, false, none, 0, none⟩ s1 heq rfl
        (by intro t ht; simp at ht) hcap1 (by simp; omega)
      rcases hinv with ⟨hc1, hunapp1, _, _⟩ | ⟨hc1, hreason, ts, t, hturns, htap, htsunapp, hfinal⟩
      · rw [if_neg (by rw [hc1]; exact Bool.false_ne_true)] at hok
        simp at hok
        subst hok
        obtain ⟨t, ht, happ⟩ := hex
        rw [hunapp1 t ht] at happ
        exact absurd happ (by simp)
      · rw [if_pos hc1] at hok
        simp at hok
        subst hok
        exact ⟨hreason, ts, t, hturns, htap, htsunapp, hfinal⟩
  · intro s hok hallun
    rw [hrun] at hok
    change (match runLoop wr rv ui (effectiveConfig cache mo mt)
        ⟨stripString ui, (effectiveConfig cache mo mt).model_name, [],
         none, false, none, 0, none⟩ with
      | .failed e s => RunResult.failure ("Workflow failed: " ++ e) (s.complete .error 0)
      | .done s => if s.completed = true then RunResult.ok s
                   else RunResult.ok (s.complete .max_turns 0)) = RunResult.ok s at hok
    split at hok
    · simp at hok
    · next s1 heq =>
      have hinv := runLoopFuel_done_inv wr rv ui (effectiveConfig cache mo mt) 12
        ⟨stripString ui, (effectiveConfig cache mo mt).model_name, [],
         none, false, none, 0, none⟩ s1 heq rfl
        (by intro t ht; simp at ht) hcap1 (by simp; omega)
      rcases hinv with ⟨hc1, hunapp1, hsc1, hle1⟩ | ⟨hc1, hreason, ts, t, hturns, htap, htsunapp, hfinal⟩
      · rw [if_neg (by rw [hc1]; exact Bool.false_ne_true)] at hok
        simp at hok
        subst hok
        have hne1 : s1.turns ≠ [] := by
          intro hnil
          have : should_continue_iteration s1 (effectiveConfig cache mo mt) = true := by
            unfold should_continue_iteration
            rw [hnil]
            rfl
          rw [this] at hsc1
          exact absurd hsc1 (by simp)
        have hcapped : (effectiveConfig cache mo mt).max_turns ≤ (s1.turns.length : Int) := by
          by_contra hlt
          push_neg at hlt
          have := should_continue_true_of_lt hunapp1 hlt
          rw [this] at hsc1
          exact absurd hsc1 (by simp)
        exact ⟨rfl, le_antisymm hle1 hcapped, hne1⟩
      · rw [if_pos hc1] at hok
        simp at hok
        subst hok
        have : t ∈ s1.turns := by rw [hturns]; exact List.mem_append_right ts (List.mem_singleton.mpr rfl)
        rw [hallun t this] at htap
        exact absurd htap (by simp)

/-- Witness for C4: scenario A (never-approving reviewer, cap 3) through
part (a), and scenario B (approval on the very turn allowed by cap 1)
through part (b). -/
theorem C4_termination_reasons_witness :
    (∃ s, (run_slogan_generation wrStub rvStub defaultOllamaConfig
        "eco-friendly water bottle" none (some 3)).1 = .ok s ∧
      s.completion_reason = some .max_turns ∧
      (s.turns.length : Int) = (effectiveConfig defaultOllamaConfig none (some 3)).max_turns ∧
      (∀ t ∈ s.turns, t.approved = false) ∧ s.turns ≠ [] ∧
      s.final_slogan = (s.turns.getLast?).map Turn.slogan) ∧
    ((⟨"water bottle", "mistral:latest",
        [⟨1, "Hydrate Now", some "SHIP IT! Great work.", true⟩],
        some "Hydrate Now", true, some .approved, 0,
        some 0⟩ : IterationSession).completion_reason = some .approved ∧
     (∃ ts t, (⟨"water bottle", "mistral:latest",
          [⟨1, "Hydrate Now", some "SHIP IT! Great work.", true⟩],
          some "Hydrate Now", true, some .approved, 0,
          some 0⟩ : IterationSession).turns = ts ++ [t] ∧
        t.approved = true ∧ (∀ u ∈ ts, u.approved = false) ∧
        (⟨"water bottle", "mistral:latest",
          [⟨1, "Hydrate Now", some "SHIP IT! Great work.", true⟩],
          some "Hydrate Now", true, some .approved, 0,
          some 0⟩ : IterationSession).final_slogan = some t.slogan)) := by
  constructor
  · exact (C4_termination_reasons wrStub rvStub defaultOllamaConfig
      "eco-friendly water bottle" none (some 3) (by decide) (by decide) (by decide)
      (by decide) (by decide)
      (fun p => ⟨"Drink Green", rfl, by decide, by decide⟩)
      (fun p => ⟨"Needs more emotional appeal", rfl, by decide⟩)).1
      (by intro p r h; injection h with h; subst h; decide)
  · exact (C4_termination_reasons wrStubB rvStubB defaultOllamaConfig
      "water bottle" none (some 1) (by decide) (by decide) (by decide)
      (by decide) (by decide)
      (fun p => ⟨"Hydrate Now", rfl, by decide, by decide⟩)
      (fun p => ⟨"SHIP IT! Great work.", rfl, by decide⟩)).2.1
      ⟨"water bottle", "mistral:latest",
        [⟨1, "Hydrate Now", some "SHIP IT! Great work.", true⟩],
        some "Hydrate Now", true, some .approved, 0, some 0⟩ rfl
      ⟨⟨1, "Hydrate Now", some "SHIP IT! Great work.", true⟩, by decide, rfl⟩

/-- The loop body only invokes the rest of the loop on a state with one
more turn (and still within the 10-turn bound), so the body is congruent
in its continuation on such states. -/
theorem runLoopStep_congr (wr rv : String → Except String String) (ui : String)
    (config : OllamaConfig) {recur recur' : IterationSession → LoopResult}
    (s : IterationSession)
    (h : ∀ s', s'.turns.length = s.turns.length + 1 → s'.turns.length ≤ 10 →
      recur s' = recur' s') :
    runLoopStep wr rv ui config recur s = runLoopStep wr rv ui config recur' s := by
  unfold runLoopStep
  split
  · split
    · rfl
    · split
      · rfl
      · split
        · rfl
        · next t s' heq =>
          split
          · rfl
          · obtain ⟨ht, hs', hlen, _⟩ := add_turn_ok_inv heq
            apply h
            · rw [hs']; simp
            · rw [hs']; simp; omega
  · rfl

/-- Above the maximal possible iteration count the fuel is irrelevant. -/
theorem runLoopFuel_agree (wr rv : String → Except String String) (ui : String)
    (config : OllamaConfig) :
    ∀ (f g : Nat) (s : IterationSession),
      11 - s.turns.length < f → 11 - s.turns.length < g →
      runLoopFuel wr rv ui config f s = runLoopFuel wr rv ui config g s := by
  intro f
  induction f with
  | zero => intro g s hf; omega
  | succ f ih =>
    intro g s hf hg
    cases g with
    | zero => omega
    | succ g =>
      show runLoopStep wr rv ui config (runLoopFuel wr rv ui config f) s =
        runLoopStep wr rv ui config (runLoopFuel wr rv ui config g) s
      apply runLoopStep_congr
      intro s' hlen hle
      apply ih
      · omega
      · omega

/-- `runLoop` satisfies the exact equation of the source `while` loop: the
fuel bound of 12 is never reached, since each iteration either exits or
appends a turn and `add_turn` rejects an 11th turn. -/
theorem runLoop_unfold (wr rv : String → Except String String) (ui : String)
    (config : OllamaConfig) (s : IterationSession) :
    runLoop wr rv ui config s =
      runLoopStep wr rv ui config (runLoop wr rv ui config) s := by
  show runLoopStep wr rv ui config (runLoopFuel wr rv ui config 11) s =
    runLoopStep wr rv ui config (runLoopFuel wr rv ui config 12) s
  apply runLoopStep_congr
  intro s' hlen hle
  apply runLoopFuel_agree
  · omega
  · omega
